import Mathlib

/-!
Shallow embedding of the Hawck input keyboard daemon (`KBDDaemon.cpp`)
and proofs about its passthrough-set maintenance, its run-loop error
budget, and its hot-plug permission wait loop.

The embedding follows the current revision of `KBDDaemon.cpp`:
  * `key_sources` (a `std::unordered_map<std::string, std::vector<int>*>`)
    becomes an association list `List (String × List Int)` whose keys are
    unique in every reachable state;
  * `passthrough_keys` (a `std::set<int>`) becomes a `Finset Int`;
  * CSV parsing is out of scope per the spec, so a parsed file is an
    `Option (List (Option Int))`: `none` models a `CSV::CSVError` thrown
    by the `CSV` constructor / `getColCells`, and each cell is the result
    of `stoi` on that cell (`none` when `stoi` throws).
-/

namespace Hawck

/-- State of the daemon's passthrough set: `key_sources` maps a canonical
CSV path to the codes it contributed, and `passthrough_keys` is the key
code set consulted by the run loop. -/
structure PTState where
  key_sources : List (String × List Int)
  passthrough_keys : Finset Int
deriving DecidableEq

/-- The empty passthrough state (daemon before any file is loaded). -/
def PTState.empty : PTState := ⟨[], ∅⟩

/-- `key_sources.find(path)`: first binding of `path`, if any. -/
def findSrc (path : String) : List (String × List Int) → Option (List Int)
  | [] => none
  | p :: ps => if p.1 = path then some p.2 else findSrc path ps

/-- `key_sources.erase(path)`: drop the binding of `path` (the C++ map has
unique keys; dropping every binding of `path` models that exactly). -/
def removeSrc (path : String) (l : List (String × List Int)) :
    List (String × List Int) :=
  l.filter (fun p => decide (p.1 ≠ path))

/-- `KBDDaemon::unloadPassthrough`: if `path` is a loaded source, erase its
codes from `passthrough_keys`, drop the binding, and re-insert every code
of every remaining source (the rebuild loop at the end of the function).
If `path` was not loaded, do nothing. -/
def unloadPassthrough (path : String) (s : PTState) : PTState :=
  match findSrc path s.key_sources with
  | none => s
  | some vec =>
    let keys1 := vec.foldl (fun a c => a.erase c) s.passthrough_keys
    let srcs := removeSrc path s.key_sources
    let keys2 := srcs.foldl (fun a p => p.2.foldl (fun b c => insert c b) a) keys1
    ⟨srcs, keys2⟩

/-- The cell loop of `KBDDaemon::loadPassthrough(std::string)`: a cell
whose `stoi` fails is skipped by the `continue`, and a parsed value is
kept only under the `i >= 0` guard. -/
def parseCells (cells : List (Option Int)) : List Int :=
  cells.filterMap (fun c =>
    match c with
    | none => none
    | some i => if 0 ≤ i then some i else none)

/-- `KBDDaemon::loadPassthrough(std::string)` after a successful
`realpath`: unload the previous contribution of `path`, then parse the
CSV. `csv = none` is a `CSV::CSVError`, caught by the handler *after* the
unload already ran. On success every parsed non-negative cell is inserted
into `passthrough_keys` and recorded as `key_sources[path]`. -/
def loadPassthrough (path : String) (csv : Option (List (Option Int)))
    (s : PTState) : PTState :=
  let s1 := unloadPassthrough path s
  match csv with
  | none => s1
  | some cells =>
    let cells_i := parseCells cells
    ⟨s1.key_sources ++ [(path, cells_i)],
     cells_i.foldl (fun a c => insert c a) s1.passthrough_keys⟩

/-- `KBDDaemon::loadPassthrough(FSEvent*)`: `perm` is
`st_mode & (S_IRWXU|S_IRWXG|S_IRWXO)` (the lower nine bits, `&&& 511`);
the load runs only when `perm == 0644` (420 decimal) and
`st_uid == getuid()`. -/
def loadPassthroughEv (mode uid duid : Nat) (path : String)
    (csv : Option (List (Option Int))) (s : PTState) : PTState :=
  if mode &&& 511 = 420 ∧ uid = duid then loadPassthrough path csv s else s

/-- `passthrough_keys.count(code)` as used by the run loop. -/
def ptContains (c : Int) (s : PTState) : Bool := c ∈ s.passthrough_keys

/-- One mutation of the passthrough state, as dispatched by the FS-event
reactors: a load whose `realpath` succeeded (with the parse outcome), a
load whose `realpath` failed (`SystemError` thrown before any mutation,
caught by the handler), or an unload (`IN_DELETE_SELF`). -/
inductive Op
  | load (path : String) (csv : Option (List (Option Int)))
  | loadBadPath (path : String)
  | unload (path : String)

/-- Apply one mutation. A failed `realpath` leaves the state untouched:
the `SystemError` is thrown before `unloadPassthrough` is reached. -/
def applyOp (s : PTState) : Op → PTState
  | .load path csv => loadPassthrough path csv s
  | .loadBadPath _ => s
  | .unload path => unloadPassthrough path s

/-- Run a sequence of mutations from the empty startup state. -/
def runOps (ops : List Op) : PTState :=
  ops.foldl applyOp PTState.empty

/-- Union of the contributions of all loaded sources. -/
def sourcesUnion (ks : List (String × List Int)) : Finset Int :=
  ks.foldr (fun p acc => p.2.toFinset ∪ acc) ∅

/-- The state is well formed: `passthrough_keys` is exactly the union of
the loaded sources' codes, and source paths are unique (as they are in
the C++ `unordered_map`). -/
def WF (s : PTState) : Prop :=
  s.passthrough_keys = sourcesUnion s.key_sources ∧
    (s.key_sources.map Prod.fst).Nodup

theorem foldl_insert_eq_union (l : List Int) (acc : Finset Int) :
    l.foldl (fun a c => insert c a) acc = acc ∪ l.toFinset := by
  induction l generalizing acc with
  | nil => simp
  | cons c l ih =>
    simp only [List.foldl_cons, List.toFinset_cons, ih]
    rw [Finset.insert_union, Finset.union_insert]

theorem foldl_erase_eq_sdiff (l : List Int) (acc : Finset Int) :
    l.foldl (fun a c => a.erase c) acc = acc \ l.toFinset := by
  induction l generalizing acc with
  | nil => simp
  | cons c l ih =>
    simp only [List.foldl_cons, List.toFinset_cons, ih]
    rw [Finset.erase_eq, sdiff_sdiff, Finset.insert_eq, Finset.sup_eq_union]

theorem foldr_union_eq (ks : List (String × List Int)) (b : Finset Int) :
    ks.foldr (fun p acc => p.2.toFinset ∪ acc) b = sourcesUnion ks ∪ b := by
  induction ks with
  | nil => simp [sourcesUnion]
  | cons p ks ih =>
    simp only [sourcesUnion, List.foldr_cons] at *
    rw [ih, Finset.union_assoc]

theorem reAdd_eq_union (ks : List (String × List Int)) (acc : Finset Int) :
    ks.foldl (fun a p => p.2.foldl (fun b c => insert c b) a) acc =
      acc ∪ sourcesUnion ks := by
  induction ks generalizing acc with
  | nil => simp [sourcesUnion]
  | cons p ks ih =>
    rw [List.foldl_cons, ih, foldl_insert_eq_union]
    have h : sourcesUnion (p :: ks) = p.2.toFinset ∪ sourcesUnion ks := by
      simp [sourcesUnion]
    rw [h, Finset.union_assoc]

theorem mem_sourcesUnion {x : Int} {ks : List (String × List Int)} :
    x ∈ sourcesUnion ks ↔ ∃ p ∈ ks, x ∈ p.2 := by
  induction ks with
  | nil => simp [sourcesUnion]
  | cons p ks ih =>
    simp only [sourcesUnion, List.foldr_cons] at *
    simp [Finset.mem_union, ih, List.mem_toFinset]

theorem findSrc_eq_none {path : String} {ks : List (String × List Int)}
    (h : findSrc path ks = none) : ∀ p ∈ ks, p.1 ≠ path := by
  induction ks with
  | nil => simp
  | cons q ks ih =>
    intro p hp
    rw [findSrc] at h
    by_cases hq : q.1 = path
    · simp [hq] at h
    · rcases List.mem_cons.mp hp with rfl | hp
      · exact hq
      · exact ih (by simpa [hq] using h) p hp

theorem mem_removeSrc {p : String × List Int} {path : String}
    {ks : List (String × List Int)} :
    p ∈ removeSrc path ks ↔ p ∈ ks ∧ p.1 ≠ path := by
  simp [removeSrc]

theorem removeSrc_eq_self {path : String} {ks : List (String × List Int)}
    (h : ∀ p ∈ ks, p.1 ≠ path) : removeSrc path ks = ks := by
  apply List.filter_eq_self.mpr
  intro p hp
  simpa using h p hp

theorem findSrc_unique {path : String} {vec : List Int}
    {ks : List (String × List Int)} (hnd : (ks.map Prod.fst).Nodup)
    (h : findSrc path ks = some vec) :
    ∀ p ∈ ks, p.1 = path → p.2 = vec := by
  induction ks with
  | nil => simp
  | cons q ks ih =>
    rw [findSrc] at h
    rw [List.map_cons, List.nodup_cons] at hnd
    intro p hp hpath
    rcases List.mem_cons.mp hp with rfl | hp
    · rw [if_pos hpath] at h
      exact Option.some_inj.mp h
    · by_cases hq : q.1 = path
      · exfalso
        apply hnd.1
        rw [hq, ← hpath]
        exact List.mem_map_of_mem Prod.fst hp
      · rw [if_neg hq] at h
        exact ih hnd.2 h p hp hpath

theorem sourcesUnion_append_single (ks : List (String × List Int))
    (p : String × List Int) :
    sourcesUnion (ks ++ [p]) = sourcesUnion ks ∪ p.2.toFinset := by
  show (ks ++ [p]).foldr (fun q acc => q.2.toFinset ∪ acc) ∅ = _
  rw [List.foldr_append, foldr_union_eq]
  simp [sourcesUnion]

/-- Under well-formedness, `unloadPassthrough` is exactly: drop the
binding of `path` and rebuild the set as the union of what remains. -/
theorem unload_result (path : String) (s : PTState) (h : WF s) :
    unloadPassthrough path s =
      ⟨removeSrc path s.key_sources,
       sourcesUnion (removeSrc path s.key_sources)⟩ := by
  unfold unloadPassthrough
  cases hfind : findSrc path s.key_sources with
  | none =>
    have hall := findSrc_eq_none hfind
    rw [removeSrc_eq_self hall, ← h.1]
  | some vec =>
    show (⟨removeSrc path s.key_sources,
        (removeSrc path s.key_sources).foldl
          (fun a p => p.2.foldl (fun b c => insert c b) a)
          (vec.foldl (fun a c => a.erase c) s.passthrough_keys)⟩ : PTState) = _
    congr 1
    rw [reAdd_eq_union, foldl_erase_eq_sdiff, h.1]
    apply Finset.union_eq_right.mpr
    intro x hx
    rcases Finset.mem_sdiff.mp hx with ⟨hxu, hxv⟩
    rcases mem_sourcesUnion.mp hxu with ⟨p, hp, hxp⟩
    by_cases hpp : p.1 = path
    · exfalso
      apply hxv
      rw [← findSrc_unique h.2 hfind p hp hpp]
      exact List.mem_toFinset.mpr hxp
    · exact mem_sourcesUnion.mpr ⟨p, mem_removeSrc.mpr ⟨hp, hpp⟩, hxp⟩

theorem wf_unload (path : String) (s : PTState) (h : WF s) :
    WF (unloadPassthrough path s) := by
  rw [unload_result path s h]
  refine ⟨rfl, ?_⟩
  have hsub : List.Sublist ((removeSrc path s.key_sources).map Prod.fst)
      (s.key_sources.map Prod.fst) :=
    (List.filter_sublist _).map Prod.fst
  exact h.2.sublist hsub

theorem unload_no_path (path : String) (s : PTState) :
    ∀ p ∈ (unloadPassthrough path s).key_sources, p.1 ≠ path := by
  unfold unloadPassthrough
  cases hfind : findSrc path s.key_sources with
  | none =>
    simpa using findSrc_eq_none hfind
  | some vec =>
    intro p hp
    exact (mem_removeSrc.mp hp).2

theorem parseCells_nonneg (cells : List (Option Int)) :
    ∀ x ∈ parseCells cells, 0 ≤ x := by
  intro x hx
  rcases List.mem_filterMap.mp hx with ⟨c, _, hc⟩
  cases c with
  | none => simp at hc
  | some i =>
    by_cases hi : 0 ≤ i
    · simp only [if_pos hi, Option.some_inj] at hc
      exact hc ▸ hi
    · simp [if_neg hi] at hc

theorem wf_load (path : String) (csv : Option (List (Option Int)))
    (s : PTState) (h : WF s) : WF (loadPassthrough path csv s) := by
  cases csv with
  | none => exact wf_unload path s h
  | some cells =>
    have h1 := wf_unload path s h
    have hnp := unload_no_path path s
    constructor
    · show (parseCells cells).foldl (fun a c => insert c a)
          (unloadPassthrough path s).passthrough_keys =
        sourcesUnion ((unloadPassthrough path s).key_sources ++
          [(path, parseCells cells)])
      rw [foldl_insert_eq_union, h1.1, sourcesUnion_append_single]
    · show ((((unloadPassthrough path s).key_sources ++
          [(path, parseCells cells)])).map Prod.fst).Nodup
      rw [List.map_append, List.nodup_append]
      refine ⟨h1.2, by simp, ?_⟩
      intro a ha hb
      simp only [List.map_cons, List.map_nil, List.mem_singleton] at hb
      rcases List.mem_map.mp ha with ⟨p, hp, rfl⟩
      exact hnp p hp hb

theorem wf_applyOp (s : PTState) (op : Op) (h : WF s) : WF (applyOp s op) := by
  cases op with
  | load path csv => exact wf_load path csv s h
  | loadBadPath path => exact h
  | unload path => exact wf_unload path s h

theorem wf_foldl (ops : List Op) (s : PTState) (h : WF s) :
    WF (ops.foldl applyOp s) := by
  induction ops generalizing s with
  | nil => exact h
  | cons op ops ih => exact ih (applyOp s op) (wf_applyOp s op h)

theorem wf_empty : WF PTState.empty :=
  ⟨by simp [PTState.empty, sourcesUnion], by simp [PTState.empty]⟩

theorem wf_runOps (ops : List Op) : WF (runOps ops) :=
  wf_foldl ops PTState.empty wf_empty

/-- After running any operation sequence, a code is in the set iff some
currently loaded source contributes it. -/
theorem ptContains_iff (ops : List Op) (c : Int) :
    ptContains c (runOps ops) = true ↔
      ∃ p ∈ (runOps ops).key_sources, c ∈ p.2 := by
  rw [ptContains, decide_eq_true_iff, (wf_runOps ops).1, mem_sourcesUnion]

/-- A CSV cell that contributes a code: `stoi` succeeded and the parsed
value is non-negative. -/
def isGoodCell : Option Int → Bool
  | none => false
  | some i => decide (0 ≤ i)

theorem parseCells_length (cells : List (Option Int)) :
    (parseCells cells).length = cells.countP isGoodCell := by
  induction cells with
  | nil => rfl
  | cons c cells ih =>
    rw [List.countP_cons]
    cases c with
    | none =>
      have hstep : parseCells (none :: cells) = parseCells cells := by
        simp [parseCells, List.filterMap_cons]
      rw [hstep, ih]
      simp [isGoodCell]
    | some i =>
      by_cases hi : 0 ≤ i
      · have hstep : parseCells (some i :: cells) = i :: parseCells cells := by
          simp [parseCells, List.filterMap_cons, hi]
        rw [hstep, List.length_cons, ih]
        simp [isGoodCell, hi]
      · have hstep : parseCells (some i :: cells) = parseCells cells := by
          simp [parseCells, List.filterMap_cons, hi]
        rw [hstep, ih]
        simp [isGoodCell, hi]

theorem findSrc_append_self (path : String) (v : List Int)
    (l : List (String × List Int)) (h : ∀ p ∈ l, p.1 ≠ path) :
    findSrc path (l ++ [(path, v)]) = some v := by
  induction l with
  | nil => simp [findSrc]
  | cons q l ih =>
    rw [List.cons_append, findSrc, if_neg (h q (List.mem_cons_self q l))]
    exact ih (fun p hp => h p (List.mem_cons_of_mem q hp))

/-- `NonNegSources s`: every code recorded for any loaded source is
non-negative (consequence of the `i >= 0` guard in the cell loop). -/
def NonNegSources (s : PTState) : Prop :=
  ∀ p ∈ s.key_sources, ∀ x ∈ p.2, 0 ≤ x

theorem nonneg_unload (path : String) (s : PTState) (h : NonNegSources s) :
    NonNegSources (unloadPassthrough path s) := by
  unfold NonNegSources unloadPassthrough
  cases hfind : findSrc path s.key_sources with
  | none => exact h
  | some vec =>
    intro p hp
    exact h p (mem_removeSrc.mp hp).1

theorem nonneg_load (path : String) (csv : Option (List (Option Int)))
    (s : PTState) (h : NonNegSources s) :
    NonNegSources (loadPassthrough path csv s) := by
  cases csv with
  | none => exact nonneg_unload path s h
  | some cells =>
    intro p hp
    rcases List.mem_append.mp hp with hp | hp
    · exact nonneg_unload path s h p hp
    · rcases List.mem_singleton.mp hp with rfl
      exact parseCells_nonneg cells

theorem nonneg_applyOp (s : PTState) (op : Op) (h : NonNegSources s) :
    NonNegSources (applyOp s op) := by
  cases op with
  | load path csv => exact nonneg_load path csv s h
  | loadBadPath path => exact h
  | unload path => exact nonneg_unload path s h

theorem nonneg_runOps (ops : List Op) : NonNegSources (runOps ops) := by
  suffices hgen : ∀ s, NonNegSources s → NonNegSources (ops.foldl applyOp s) by
    exact hgen PTState.empty (by intro p hp; simp [PTState.empty] at hp)
  induction ops with
  | nil => exact fun s h => h
  | cons op ops ih => exact fun s h => ih (applyOp s op) (nonneg_applyOp s op h)

/-- C1: a load delivered through `loadPassthrough(FSEvent*)` whose stat
shows a permission mode (lower nine bits) other than `0644`, or an owner
uid different from the daemon's uid, is rejected and leaves the whole
passthrough state (both `key_sources` and `passthrough_keys`) unchanged,
so in particular the file's prior contribution, if any, is kept. -/
theorem c1_permission_gate_frame (mode uid duid : Nat) (path : String)
    (csv : Option (List (Option Int))) (s : PTState)
    (h : mode &&& 511 ≠ 420 ∨ uid ≠ duid) :
    loadPassthroughEv mode uid duid path csv s = s := by
  unfold loadPassthroughEv
  rw [if_neg]
  intro hc
  rcases h with h | h
  · exact h hc.1
  · exact h hc.2

/-- Witness for C1: a reload of `"a"` arriving with mode `0600` (384) is
rejected and the state, which already holds code 30 from `"a"`, is
bitwise unchanged. -/
theorem c1_permission_gate_frame_witness :
    (384 &&& 511 ≠ 420 ∨ (1 : Nat) ≠ 1) ∧
      loadPassthroughEv 384 1 1 "a" (some [some 31])
          (runOps [Op.load "a" (some [some 30])]) =
        runOps [Op.load "a" (some [some 30])] :=
  ⟨Or.inl (by decide),
    c1_permission_gate_frame 384 1 1 "a" (some [some 31]) _
      (Or.inl (by decide))⟩

/-- C3: for every sequence of load/unload operations, a code is in the
passthrough set exactly when some currently loaded file contributes it;
the shared-code scenario of the claim is an instance (see the example
below the theorem). -/
theorem c3_set_is_union_of_sources (ops : List Op) (c : Int) :
    ptContains c (runOps ops) = true ↔
      ∃ p ∈ (runOps ops).key_sources, c ∈ p.2 :=
  ptContains_iff ops c

/-- C4 counterexample: file `"a"` is loaded and contributes code 30; a
reload of `"a"` whose CSV fails to parse (`CSV::CSVError`) then leaves
`"a"` with *no* contribution — `unloadPassthrough` runs before the parse,
so the prior contribution is not kept as the claim states. -/
theorem c4_counterexample_parse_error_loses_contribution :
    ptContains 30 (runOps [Op.load "a" (some [some 30])]) = true ∧
    findSrc "a" (loadPassthrough "a" none
        (runOps [Op.load "a" (some [some 30])])).key_sources = none ∧
    ptContains 30 (loadPassthrough "a" none
        (runOps [Op.load "a" (some [some 30])])) = false := by
  decide

/-- C4 amended: on a parse failure the daemon continues, but the path's
prior contribution has already been dropped by the unload step that runs
before parsing: afterwards a code is contained exactly when some *other*
loaded file contributes it. -/
theorem c4_amended_parse_error_state (ops : List Op) (path : String)
    (c : Int) :
    ptContains c (loadPassthrough path none (runOps ops)) = true ↔
      ∃ p ∈ (runOps ops).key_sources, p.1 ≠ path ∧ c ∈ p.2 := by
  show ptContains c (unloadPassthrough path (runOps ops)) = true ↔ _
  rw [unload_result path (runOps ops) (wf_runOps ops), ptContains,
    decide_eq_true_iff]
  show c ∈ sourcesUnion (removeSrc path (runOps ops).key_sources) ↔ _
  rw [mem_sourcesUnion]
  constructor
  · rintro ⟨p, hp, hc⟩
    rcases mem_removeSrc.mp hp with ⟨hpm, hpne⟩
    exact ⟨p, hpm, hpne, hc⟩
  · rintro ⟨p, hpm, hpne, hc⟩
    exact ⟨p, mem_removeSrc.mpr ⟨hpm, hpne⟩, hc⟩

/-- C9: during a successful load, `key_sources[path]` becomes exactly the
parsed cells, each cell that parses as a non-negative integer contributes
exactly one code (the length equals the count of such cells), every
contributed code enters the set, and an unparsable cell anywhere in the
CSV is skipped without affecting the outcome. -/
theorem c9_cell_contribution (s : PTState) (path : String)
    (cells pre post : List (Option Int)) :
    findSrc path (loadPassthrough path (some cells) s).key_sources =
        some (parseCells cells) ∧
    (parseCells cells).length = cells.countP isGoodCell ∧
    (∀ c ∈ parseCells cells,
      ptContains c (loadPassthrough path (some cells) s) = true) ∧
    loadPassthrough path (some (pre ++ none :: post)) s =
      loadPassthrough path (some (pre ++ post)) s := by
  refine ⟨?_, parseCells_length cells, ?_, ?_⟩
  · show findSrc path ((unloadPassthrough path s).key_sources ++
        [(path, parseCells cells)]) = some (parseCells cells)
    exact findSrc_append_self path _ _ (unload_no_path path s)
  · intro c hc
    show decide (c ∈ (parseCells cells).foldl (fun a x => insert x a)
        (unloadPassthrough path s).passthrough_keys) = true
    rw [decide_eq_true_iff, foldl_insert_eq_union]
    exact Finset.mem_union_right _ (List.mem_toFinset.mpr hc)
  · have hp : parseCells (pre ++ none :: post) = parseCells (pre ++ post) := by
      simp [parseCells, List.filterMap_append, List.filterMap_cons]
    show (⟨(unloadPassthrough path s).key_sources ++
          [(path, parseCells (pre ++ none :: post))],
        (parseCells (pre ++ none :: post)).foldl (fun a x => insert x a)
          (unloadPassthrough path s).passthrough_keys⟩ : PTState) = _
    rw [hp]
    exact rfl

/-- Witness for C9: loading `["30", junk]` into the empty state makes 30
a passthrough code. -/
theorem c9_cell_contribution_witness :
    (30 : Int) ∈ parseCells [some 30, none] ∧
    ptContains 30 (loadPassthrough "a" (some [some 30, none])
        PTState.empty) = true :=
  ⟨by decide,
    (c9_cell_contribution PTState.empty "a" [some 30, none] [] []).2.2.1 30
      (by decide)⟩

/-- C10: in every reachable passthrough state, `contains` is false on
every negative code: the `i >= 0` guard keeps negative parses out of the
set and the unload rebuild only re-inserts recorded (non-negative)
codes. -/
theorem c10_codes_nonneg (ops : List Op) (c : Int) (h : c < 0) :
    ptContains c (runOps ops) = false := by
  cases hb : ptContains c (runOps ops) with
  | false => rfl
  | true =>
    exfalso
    rcases (ptContains_iff ops c).mp hb with ⟨p, hp, hcp⟩
    exact absurd (nonneg_runOps ops p hp c hcp) (not_le.mpr h)

/-- Witness for C10: a CSV containing `-5` does not put `-5` in the
set. -/
theorem c10_codes_nonneg_witness :
    ((-5 : Int) < 0) ∧
    ptContains (-5) (runOps [Op.load "a" (some [some 30, some (-5)])]) =
      false :=
  ⟨by decide,
    c10_codes_nonneg [Op.load "a" (some [some 30, some (-5)])] (-5)
      (by decide)⟩

/-! ## The run loop (`KBDDaemon::run`)

One iteration of the main loop is modelled as a function of the event
read from the keyboard, the device state, the current error counter and
the outcomes of the socket operations of that iteration.  The socket
environment is a trace: `sendOk` tells whether `kbd_com.send` succeeded,
and `recvs` lists the outcomes of successive `kbd_com.recv` calls (a
received `KBDAction`, or a `SocketError`; an exhausted trace stands for a
connection that yields no further message, which surfaces as a
`SocketError` too).  Crucially, as in the C++, a successful `recv`
overwrites the single `action` buffer that held the original key. -/

/-- A kernel input event as carried in `KBDAction.ev`. -/
structure KeyEvent where
  code : Nat
  value : Int
deriving DecidableEq

/-- `KBDAction`: the wire unit exchanged with the macro daemon. -/
structure KBDAction where
  ev : KeyEvent
  done : Bool
deriving DecidableEq

/-- Outcome of one `kbd_com.recv(&action)` call. -/
inductive RecvResult
  | ok (a : KBDAction)
  | err
deriving DecidableEq

/-- Observable outcome of one run-loop iteration: events queued on the
virtual device (`udev.emit`), number of `udev.flush` calls, actions
handed to `kbd_com.send`, the error counter after the iteration, and
whether the iteration called `abort()`. -/
structure IterOutcome where
  emits : List KeyEvent
  flushes : Nat
  sendAttempts : List KBDAction
  errorsOut : Nat
  aborted : Bool
deriving DecidableEq

/-- The receive loop: keep calling `recv` into the `action` buffer until
a received action has `done` set.  Returns the events emitted for
non-`done` replies, the final contents of the `action` buffer, and
whether the loop ended with `done` (`true`) or with a `SocketError`
(`false`).  A failed `recv` leaves the buffer as it was. -/
def recvLoop (a : KBDAction) : List RecvResult →
    List KeyEvent × KBDAction × Bool
  | [] => ([], a, false)
  | .ok r :: rest =>
    if r.done then ([], r, true)
    else
      let res := recvLoop r rest
      (r.ev :: res.1, res.2)
  | .err :: _ => ([], a, false)

/-- The passthrough branch of one iteration (`if (is_passthrough) { ... }`
plus the shared tail).  On a successful round trip the replies are
emitted, the queue is flushed and the error counter is reset, and the
original key is *not* re-emitted.  On a `SocketError` the counter is
post-incremented and checked against MAX_ERRORS (`errors++ > maxErrors`):
beyond the budget the daemon aborts, otherwise control falls through to
`udev.emit(&action.ev); udev.flush()` — emitting whatever the `action`
buffer holds at that point. -/
def passthroughIteration (a0 : KBDAction) (errors maxErrors : Nat)
    (sendOk : Bool) (recvs : List RecvResult) : IterOutcome :=
  if sendOk then
    let res := recvLoop a0 recvs
    if res.2.2 then
      ⟨res.1, 1, [a0], 0, false⟩
    else if errors > maxErrors then
      ⟨res.1, 0, [a0], errors + 1, true⟩
    else
      ⟨res.1 ++ [res.2.1.ev], 1, [a0], errors + 1, false⟩
  else
    if errors > maxErrors then ⟨[], 0, [a0], errors + 1, true⟩
    else ⟨[a0.ev], 1, [a0], errors + 1, false⟩

/-- `KBDState` of a `Keyboard` (`INITIAL`, `LOCKED`, `DISABLED`). -/
inductive KBDState
  | INITIAL
  | LOCKED
  | DISABLED
deriving DecidableEq

/-- One full iteration of the main loop after an event `ev` was read from
a keyboard in state `st`: the `had_key` gate discards the event unless
the state is `LOCKED`; a passthrough key goes through the socket branch;
any other key is re-emitted verbatim. -/
def runIteration (st : KBDState) (ev : KeyEvent) (pt : PTState)
    (errors maxErrors : Nat) (sendOk : Bool) (recvs : List RecvResult) :
    IterOutcome :=
  if st = KBDState.LOCKED then
    if ptContains (Int.ofNat ev.code) pt then
      passthroughIteration ⟨ev, false⟩ errors maxErrors sendOk recvs
    else ⟨[ev], 1, [], errors, false⟩
  else ⟨[], 0, [], errors, false⟩

/-- A receive trace that completes a round trip: some `ok` replies ending
in one with `done` set, before any error or exhaustion. -/
def recvsSucceed : List RecvResult → Bool
  | [] => false
  | .ok a :: rest => a.done || recvsSucceed rest
  | .err :: _ => false

theorem recvLoop_ok_iff (a : KBDAction) (recvs : List RecvResult) :
    (recvLoop a recvs).2.2 = recvsSucceed recvs := by
  induction recvs generalizing a with
  | nil => rfl
  | cons r rest ih =>
    cases r with
    | err => rfl
    | ok b =>
      by_cases hb : b.done
      · simp [recvLoop, recvsSucceed, hb]
      · simp only [recvLoop, recvsSucceed, hb, if_neg, Bool.false_or]
        simpa [hb] using ih b

/-- The socket-flap scenario: iterations in which every send fails
(`MACROD` closed the socket), starting from a zero error counter with
`MAX_ERRORS = 30`.  Once an iteration aborts the process is gone, so the
state freezes. -/
def simFlap : Nat → Nat × Bool
  | 0 => (0, false)
  | n + 1 =>
    let prev := simFlap n
    if prev.2 then prev
    else
      let out := passthroughIteration ⟨⟨0, 0⟩, false⟩ prev.1 30 false []
      (out.errorsOut, out.aborted)

/-- C2 counterexample: original key `{code 30, press}` is read; `send`
succeeds; MACROD replies once with `{code 31, press, done=false}` (which
is emitted), then the connection errors on the second `recv`.  The
budget is not exceeded (counter goes 0 → 1, no abort), yet the original
key appears zero times on VirtualOut: the fallthrough emit re-sends the
reply that overwrote the shared `action` buffer, so code 31 is emitted
twice and code 30 never. -/
theorem c2_counterexample_fallthrough_emits_reply :
    (passthroughIteration ⟨⟨30, 1⟩, false⟩ 0 30 true
        [RecvResult.ok ⟨⟨31, 1⟩, false⟩, RecvResult.err]).aborted = false ∧
    (passthroughIteration ⟨⟨30, 1⟩, false⟩ 0 30 true
        [RecvResult.ok ⟨⟨31, 1⟩, false⟩, RecvResult.err]).errorsOut = 1 ∧
    (passthroughIteration ⟨⟨30, 1⟩, false⟩ 0 30 true
        [RecvResult.ok ⟨⟨31, 1⟩, false⟩, RecvResult.err]).emits.count
        ⟨30, 1⟩ = 0 ∧
    (passthroughIteration ⟨⟨30, 1⟩, false⟩ 0 30 true
        [RecvResult.ok ⟨⟨31, 1⟩, false⟩, RecvResult.err]).emits =
      [⟨31, 1⟩, ⟨31, 1⟩] := by
  decide

/-- C2 amended: on a SocketError within budget the daemon does not abort
and emits, exactly once, whatever the `action` buffer holds; that is the
original key exactly when the error struck at `send` or at the first
`recv`, before any reply overwrote the buffer. -/
theorem c2_amended_fallthrough_original_key (a0 : KBDAction)
    (errors maxErrors : Nat) (recvs rest : List RecvResult)
    (h : errors ≤ maxErrors) :
    (passthroughIteration a0 errors maxErrors false recvs).emits =
        [a0.ev] ∧
    (passthroughIteration a0 errors maxErrors false recvs).aborted =
        false ∧
    (passthroughIteration a0 errors maxErrors true
        (RecvResult.err :: rest)).emits = [a0.ev] ∧
    (passthroughIteration a0 errors maxErrors true
        (RecvResult.err :: rest)).aborted = false := by
  have hng : ¬ errors > maxErrors := not_lt.mpr h
  refine ⟨?_, ?_, ?_, ?_⟩ <;>
    simp [passthroughIteration, recvLoop, hng]

/-- Witness for the amended C2: a send failure with a zero error counter
re-emits the pressed key. -/
theorem c2_amended_fallthrough_original_key_witness :
    (0 ≤ 30) ∧
    (passthroughIteration ⟨⟨30, 1⟩, false⟩ 0 30 false []).emits =
      [⟨30, 1⟩] :=
  ⟨by decide,
    (c2_amended_fallthrough_original_key ⟨⟨30, 1⟩, false⟩ 0 30 [] []
      (by decide)).1⟩

/-- C5 counterexample: with `MAX_ERRORS = 30`, after 31 consecutive
socket errors (the claim's "first error plus 30 more") the counter is 31
but the daemon has *not* aborted — `errors++ > MAX_ERRORS` compares the
pre-increment value — and only the 32nd consecutive error aborts. -/
theorem c5_counterexample_no_abort_at_31 :
    (simFlap 31).2 = false ∧ (simFlap 31).1 = 31 ∧
    (simFlap 32).2 = true := by
  decide

/-- C5 amended: the counter is incremented on every socket failure, and
the process aborts exactly on the failure whose pre-increment counter
exceeds `MAX_ERRORS = 30`, i.e. on the 32nd consecutive socket error
(30 + 2, because the check is post-increment). -/
theorem c5_amended_abort_on_32nd_error (n : Nat) :
    ((simFlap n).2 = true ↔ 32 ≤ n) ∧ (simFlap n).1 = min n 32 := by
  induction n with
  | zero => simp [simFlap]
  | succ n ih =>
    rcases ih with ⟨ha, he⟩
    rw [simFlap]
    by_cases h32 : 32 ≤ n
    · rw [if_pos (ha.mpr h32)]
      refine ⟨⟨fun _ => by omega, fun _ => ha.mpr h32⟩, ?_⟩
      rw [he]
      omega
    · have hfalse : (simFlap n).2 = false := by
        cases hb : (simFlap n).2 with
        | false => rfl
        | true => exact absurd (ha.mp hb) h32
      rw [if_neg (by rw [hfalse]; exact Bool.false_ne_true)]
      rw [he]
      have hmin : min n 32 = n := by omega
      rw [hmin]
      by_cases h31 : n > 30
      · have hn : n = 31 := by omega
        subst hn
        refine ⟨⟨fun _ => by omega, fun _ => rfl⟩, rfl⟩
      · simp only [passthroughIteration, if_neg h31, Bool.false_eq_true,
          if_false]
        refine ⟨⟨fun hc => hc.elim, fun hc => by omega⟩, by omega⟩

/-- C6: a successful round trip — send succeeds, zero or more replies
arrive and the burst terminates with `done=true` before any socket error
— resets the consecutive-error counter to 0 for the next iteration, and
does not abort. -/
theorem c6_budget_reset_on_roundtrip (a0 : KBDAction)
    (errors maxErrors : Nat) (recvs : List RecvResult)
    (h : recvsSucceed recvs = true) :
    (passthroughIteration a0 errors maxErrors true recvs).errorsOut = 0 ∧
    (passthroughIteration a0 errors maxErrors true recvs).aborted =
      false := by
  have hr : (recvLoop a0 recvs).2.2 = true := by
    rw [recvLoop_ok_iff]
    exact h
  refine ⟨?_, ?_⟩ <;> simp [passthroughIteration, hr]

/-- Witness for C6: after a round trip with one echoed reply the counter
drops from 7 to 0. -/
theorem c6_budget_reset_on_roundtrip_witness :
    recvsSucceed [RecvResult.ok ⟨⟨30, 1⟩, false⟩,
        RecvResult.ok ⟨⟨0, 0⟩, true⟩] = true ∧
    (passthroughIteration ⟨⟨30, 1⟩, false⟩ 7 30 true
        [RecvResult.ok ⟨⟨30, 1⟩, false⟩,
         RecvResult.ok ⟨⟨0, 0⟩, true⟩]).errorsOut = 0 :=
  ⟨by decide,
    (c6_budget_reset_on_roundtrip ⟨⟨30, 1⟩, false⟩ 7 30 _ (by decide)).1⟩

/-- C7: while the keyboard a readable event came from is in state
`INITIAL` or `DISABLED`, the `had_key` gate discards the event: nothing
is emitted on the virtual device and nothing is sent on the socket in
that iteration, whatever the passthrough set, error counter or socket
behaviour. -/
theorem c7_no_leak_before_lock (st : KBDState) (ev : KeyEvent)
    (pt : PTState) (errors maxErrors : Nat) (sendOk : Bool)
    (recvs : List RecvResult)
    (h : st = KBDState.INITIAL ∨ st = KBDState.DISABLED) :
    (runIteration st ev pt errors maxErrors sendOk recvs).emits = [] ∧
    (runIteration st ev pt errors maxErrors sendOk recvs).sendAttempts =
      [] := by
  have hne : st ≠ KBDState.LOCKED := by
    rcases h with rfl | rfl <;> simp
  refine ⟨?_, ?_⟩ <;> simp [runIteration, hne]

/-- Witness for C7: a readable event with a passthrough code (30 is
loaded) from a not-yet-locked keyboard produces no emission and no
socket traffic. -/
theorem c7_no_leak_before_lock_witness :
    (KBDState.INITIAL = KBDState.INITIAL ∨
      KBDState.INITIAL = KBDState.DISABLED) ∧
    (runIteration KBDState.INITIAL ⟨30, 1⟩
        (runOps [Op.load "a" (some [some 30])]) 0 30 true []).emits = [] ∧
    (runIteration KBDState.INITIAL ⟨30, 1⟩
        (runOps [Op.load "a" (some [some 30])]) 0 30 true []).sendAttempts =
      [] :=
  ⟨Or.inl rfl,
    c7_no_leak_before_lock KBDState.INITIAL ⟨30, 1⟩
      (runOps [Op.load "a" (some [some 30])]) 0 30 true [] (Or.inl rfl)⟩

/-! ## The hot-plug permission wait loop (`input_fsw` handler)

The do-while loop in the `/dev/input/` handler is

    do { usleep(...); ret = stat(...); grp_perm = stbuf.st_mode & S_IRWXG; ... }
    while (ret != -1 && !(4 & grp_perm && grp_perm & 2) && stbuf.st_gid != input_gid);

with `S_IRWXG = 0o070 = 56`.  The loop keeps waiting exactly while this
condition is true; it is modelled verbatim below (C truthiness: a
nonzero int is true). -/

/-- `grp_perm = stbuf.st_mode & S_IRWXG`. -/
def grpPerm (mode : Nat) : Nat := mode &&& 56

/-- The loop's continuation condition, exactly as written in the source:
`ret != -1 && !(4 & grp_perm && grp_perm & 2) && stbuf.st_gid != input_gid`. -/
def waitLoopCond (statOk : Bool) (mode gid inputGid : Nat) : Bool :=
  statOk &&
    !(decide (4 &&& grpPerm mode ≠ 0) && decide (grpPerm mode &&& 2 ≠ 0)) &&
    decide (gid ≠ inputGid)

/-- The condition the spec (and the comment above the loop in the
source) say the loop waits for: group owner is the `input` group AND the
group read bit (`S_IRGRP = 0o040 = 32`) AND the group write bit
(`S_IWGRP = 0o020 = 16`) are set.  Stated from the spec's words for
comparison with `waitLoopCond`. -/
def specWaitRequirement (mode gid inputGid : Nat) : Bool :=
  decide (gid = inputGid) && decide (mode &&& 32 ≠ 0) &&
    decide (mode &&& 16 ≠ 0)

/-- The permission test of the loop is vacuous: `grp_perm` only retains
the group bits 0o70, so `4 & grp_perm` (the *other*-user read bit) and
`grp_perm & 2` (the *other*-user write bit) are zero for every mode. -/
theorem waitLoop_perm_test_vacuous (mode : Nat) :
    4 &&& grpPerm mode = 0 ∧ grpPerm mode &&& 2 = 0 := by
  constructor
  · rw [grpPerm, Nat.land_comm mode 56, ← Nat.land_assoc,
      show (4 &&& 56 : ℕ) = 0 from by decide]
    exact Nat.zero_and mode
  · rw [grpPerm, Nat.land_assoc, show (56 &&& 2 : ℕ) = 0 from by decide]
    exact Nat.and_zero mode

/-- Consequence: the loop continues exactly while `stat` succeeds and the
group owner differs from `input` — the group r/w bits play no part. -/
theorem waitLoopCond_ignores_permissions (statOk : Bool)
    (mode gid inputGid : Nat) :
    waitLoopCond statOk mode gid inputGid =
      (statOk && decide (gid ≠ inputGid)) := by
  rcases waitLoop_perm_test_vacuous mode with ⟨h4, h2⟩
  rw [waitLoopCond, h4]
  simp

/-- C8 (code-bug evaluation): a new `/dev/input/eventN` node owned by
`root:input` (gid of `input` here 105) with mode `0600` (384: no group
read, no group write) makes the do-while condition false on the first
test — the handler stops waiting and proceeds straight to
`isMe`/`reset`/`lock` — although the condition the claim (and the
source's own comment) requires, input group *and* group r/w bits, is not
satisfied. -/
theorem c8_wait_loop_exits_without_group_rw :
    waitLoopCond true 384 105 105 = false ∧
    specWaitRequirement 384 105 105 = false := by
  decide

end Hawck
